import Mathlib

/-!
Verification of the polygon-geometry core (polygon.c / polygonAlgos.h,
instantiated for the array-backed GeoLoop representation) against its
natural-language specification.

Machine doubles are modelled as exact rationals; the C constants M_PI, M_2PI,
DBL_EPSILON and DBL_MAX are the exact rational values of the corresponding
IEEE-754 double constants.  Loops are lists of vertices; the edge iteration
of the C macros (INIT_ITERATION / ITERATE) yields the consecutive pairs
(verts[i], verts[(i+1) mod numVerts]).
-/

/-- Coordinate pair in radians, as in latLng.h: latitude then longitude. -/
structure LatLng where
  lat : ℚ
  lng : ℚ
deriving DecidableEq, Repr

/-- Bounding box of a loop, as in bbox.h: north/south latitude bounds and
east/west longitude bounds. -/
structure BBox where
  north : ℚ
  south : ℚ
  east : ℚ
  west : ℚ
deriving DecidableEq, Repr

/-- Planar vector used by the segment-intersection routine (vec2d.h). -/
structure Vec2d where
  x : ℚ
  y : ℚ
deriving DecidableEq, Repr

/-- Exact rational value of the C double constant M_PI. -/
def M_PI : ℚ := 884279719003555 / 281474976710656

/-- Exact rational value of the C double constant M_2PI (constants.h). -/
def M_2PI : ℚ := 884279719003555 / 140737488355328

/-- Exact rational value of the C double constant DBL_EPSILON. -/
def DBL_EPSILON : ℚ := 1 / 4503599627370496

/-- Exact rational value of the C double constant DBL_MAX. -/
def DBL_MAX : ℚ := (2 ^ 53 - 1) * 2 ^ 971

/-- GeoLoop: a loop of vertices (h3api.h); numVerts is the list length. -/
abbrev GeoLoop := List LatLng

/-- GeoPolygon: one outer loop plus a list of holes (h3api.h); numHoles is
the length of the hole list. -/
structure GeoPolygon where
  geoloop : GeoLoop
  holes : List GeoLoop

/-- Edge iteration of the C macros INIT_ITERATION_GEOFENCE / ITERATE_GEOFENCE
(polygon.h): the pairs (verts[i], verts[(i+1) mod numVerts]) for
i = 0 .. numVerts-1.  Modelled from the spec: a loop exposes
"iterate edges as consecutive (possibly wrapping) coordinate pairs" and the
last vertex connects back to the first. -/
def edgePairs (loop : GeoLoop) : List (LatLng × LatLng) :=
  loop.zip (loop.rotate 1)

/-- NORMALIZE_LNG macro (polygonAlgos.h line 58): normalize longitude,
dealing with transmeridian arcs. -/
def NORMALIZE_LNG (lng : ℚ) (isTransmeridian : Bool) : ℚ :=
  if isTransmeridian ∧ lng < 0 then lng + M_2PI else lng

/-- Modelled from the spec: the bounding-box utility's derived
"is transmeridian" property, encoded as west > east
("yields west > east encoding wraparound"); bbox.h is not under src. -/
def bboxIsTransmeridian (bbox : BBox) : Bool :=
  decide (bbox.east < bbox.west)

/-- Modelled from the spec: the bounding-box utility's point-containment
query, latitude within south..north and longitude within the west..east span,
where a transmeridian box (west > east) wraps through the antimeridian;
bbox.h is not under src. -/
def bboxContains (bbox : BBox) (point : LatLng) : Bool :=
  decide (bbox.south ≤ point.lat) && decide (point.lat ≤ bbox.north) &&
    (if bboxIsTransmeridian bbox then
      decide (bbox.west ≤ point.lng) || decide (point.lng ≤ bbox.east)
    else
      decide (bbox.west ≤ point.lng) && decide (point.lng ≤ bbox.east))

/-- Modelled from the spec: threshold coincidence test between coordinates
("almost equal" comparison with a fixed small epsilon, not bit-exact
equality); latLng.c is not under src. -/
def geoAlmostEqualThreshold (p1 p2 : LatLng) (threshold : ℚ) : Bool :=
  decide (|p1.lat - p2.lat| < threshold) && decide (|p1.lng - p2.lng| < threshold)

/-- Modelled from the spec: the 2-D signed-orientation (cross-product sign)
primitive classifying a point as left/right/on a directed segment; vec2d.c
is not under src.  Returns the sign (1, -1 or 0) of the cross product of
(v1 - v0) and (p - v0). -/
def _v2dOrient (v0 v1 p : Vec2d) : ℤ :=
  let cross := (v1.x - v0.x) * (p.y - v0.y) - (v1.y - v0.y) * (p.x - v0.x)
  if 0 < cross then 1 else if cross < 0 then -1 else 0

/-- One iteration of the ray-casting while-loop of pointInside
(polygonAlgos.h lines 85-138).  The state carries the (possibly nudged)
query latitude and longitude together with the parity flag; the nudges done
by the C code mutate locals that persist across iterations. -/
def pointInsideStep (isTransmeridian : Bool) (st : ℚ × ℚ × Bool)
    (e : LatLng × LatLng) : ℚ × ℚ × Bool :=
  let lat0 := st.1
  let lng0 := st.2.1
  let contains := st.2.2
  -- swap so that the second point is always higher
  let a := if e.2.lat < e.1.lat then e.2 else e.1
  let b := if e.2.lat < e.1.lat then e.1 else e.2
  -- adjust the latitude northward on an exact match
  let lat := if lat0 = a.lat ∨ lat0 = b.lat then lat0 + DBL_EPSILON else lat0
  if lat < a.lat ∨ b.lat < lat then (lat, lng0, contains)
  else
    let aLng := NORMALIZE_LNG a.lng isTransmeridian
    let bLng := NORMALIZE_LNG b.lng isTransmeridian
    -- on an exact longitude match, bias westerly
    let lng := if aLng = lng0 ∨ bLng = lng0 then lng0 - DBL_EPSILON else lng0
    let frac := (lat - a.lat) / (b.lat - a.lat)
    let testLng := NORMALIZE_LNG (aLng + (bLng - aLng) * frac) isTransmeridian
    if lng < testLng then (lat, lng, !contains) else (lat, lng, contains)

/-- pointInside, the core loop of the point-in-poly algorithm
(polygonAlgos.h lines 68-141), instantiated for GeoLoop. -/
def pointInsideGeoLoop (loop : GeoLoop) (bbox : BBox) (coord : LatLng) : Bool :=
  if !bboxContains bbox coord then false
  else
    let isT := bboxIsTransmeridian bbox
    ((edgePairs loop).foldl (pointInsideStep isT)
      (coord.lat, NORMALIZE_LNG coord.lng isT, false)).2.2

/-- The while-loop of segmentIntersects (polygonAlgos.h lines 190-259),
recursing over the loop edges.  The accumulator mirrors the C locals oa,
first and reused; the segment data (normalized endpoints and their bounding
rectangle) is fixed. -/
def segmentIntersectsScan (isT : Bool) (v0 v1 : Vec2d) (p0 p1 : LatLng)
    (xmin xmax ymin ymax : ℚ) :
    List (LatLng × LatLng) → ℤ → Bool → Bool → Bool
  | [], _, _, _ => false
  | (a, b) :: rest, oa, first, reused =>
    let va : Vec2d := ⟨NORMALIZE_LNG a.lng isT, a.lat⟩
    let vb : Vec2d := ⟨NORMALIZE_LNG b.lng isT, b.lat⟩
    -- loop segment bounds
    let xminAb := min va.x vb.x
    let xmaxAb := max va.x vb.x
    let yminAb := min va.y vb.y
    let ymaxAb := max va.y vb.y
    -- check if bounding boxes of the two segments intersect
    if xmax < xminAb ∨ xmaxAb < xmin ∨ ymax < yminAb ∨ ymaxAb < ymin then
      segmentIntersectsScan isT v0 v1 p0 p1 xmin xmax ymin ymax rest oa false false
    -- check for matching points
    else if first &&
        (geoAlmostEqualThreshold p0 a DBL_EPSILON ||
         geoAlmostEqualThreshold p0 b DBL_EPSILON) then true
    else if geoAlmostEqualThreshold p1 a DBL_EPSILON ||
        geoAlmostEqualThreshold p1 b DBL_EPSILON then true
    else
      -- check orientation of loop points to (p0, p1); reuse oa when flagged
      let oa2 := if reused then oa else _v2dOrient v0 v1 va
      if (!reused) = true ∧ oa2 = 0 ∧ xmin ≤ va.x ∧ va.x ≤ xmax ∧
          ymin ≤ va.y ∧ va.y ≤ ymax then true
      else
        let ob := _v2dOrient v0 v1 vb
        if ob = 0 ∧ xmin ≤ vb.x ∧ vb.x ≤ xmax ∧ ymin ≤ vb.y ∧ vb.y ≤ ymax then
          true
        else
          -- check orientation of segment points to (a, b)
          let o0 := _v2dOrient va vb v0
          if o0 = 0 ∧ xminAb ≤ v0.x ∧ v0.x ≤ xmaxAb ∧ yminAb ≤ v0.y ∧
              v0.y ≤ ymaxAb then true
          else
            let o1 := _v2dOrient va vb v1
            if o1 = 0 ∧ xminAb ≤ v1.x ∧ v1.x ≤ xmaxAb ∧ yminAb ≤ v1.y ∧
                v1.y ≤ ymaxAb then true
            else if oa2 * ob = -1 ∧ o0 * o1 = -1 then true
            else
              segmentIntersectsScan isT v0 v1 p0 p1 xmin xmax ymin ymax rest
                ob first true

/-- segmentIntersects (polygonAlgos.h lines 152-262), instantiated for
GeoLoop: determines whether the segment p0-p1 intersects any segment of the
loop. -/
def segmentIntersectsGeoLoop (loop : GeoLoop) (bbox : BBox) (p0 p1 : LatLng) :
    Bool :=
  if loop.isEmpty then false
  -- fail fast if the segment cannot possibly intersect the bounding box
  else if (bbox.north < p0.lat ∧ bbox.north < p1.lat) ∨
      (bbox.east < p0.lng ∧ bbox.east < p1.lng) ∨
      (p0.lat < bbox.south ∧ p1.lat < bbox.south) ∨
      (p0.lng < bbox.west ∧ p1.lng < bbox.west) then false
  else
    let isT := bboxIsTransmeridian bbox || decide (M_PI < |p0.lng - p1.lng|)
    let v0 : Vec2d := ⟨NORMALIZE_LNG p0.lng isT, p0.lat⟩
    let v1 : Vec2d := ⟨NORMALIZE_LNG p1.lng isT, p1.lat⟩
    segmentIntersectsScan isT v0 v1 p0 p1 (min v0.x v1.x) (max v0.x v1.x)
      (min v0.y v1.y) (max v0.y v1.y) (edgePairs loop) 0 true false

/-- Accumulator state of the bboxFrom single pass (polygonAlgos.h
lines 280-312). -/
structure BBoxScanState where
  north : ℚ
  south : ℚ
  east : ℚ
  west : ℚ
  minPosLng : ℚ
  maxNegLng : ℚ
  isTransmeridian : Bool
deriving DecidableEq, Repr

/-- One iteration of the bboxFrom while-loop (polygonAlgos.h lines 295-312):
accumulate extrema, track min positive / max negative longitude, and flag
arcs longer than 180 degrees as transmeridian. -/
def bboxFromStep (st : BBoxScanState) (e : LatLng × LatLng) : BBoxScanState :=
  let lat := e.1.lat
  let lng := e.1.lng
  { north := if st.north < lat then lat else st.north
    south := if lat < st.south then lat else st.south
    east := if st.east < lng then lng else st.east
    west := if lng < st.west then lng else st.west
    minPosLng := if 0 < lng ∧ lng < st.minPosLng then lng else st.minPosLng
    maxNegLng := if lng < 0 ∧ st.maxNegLng < lng then lng else st.maxNegLng
    isTransmeridian := st.isTransmeridian || decide (M_PI < |lng - e.2.lng|) }

/-- bboxFrom (polygonAlgos.h lines 273-318), instantiated for GeoLoop:
create a bounding box from a loop, swapping east and west to the tracked
max-negative / min-positive longitudes when the loop is transmeridian. -/
def bboxFromGeoLoop (loop : GeoLoop) : BBox :=
  if loop.isEmpty then ⟨0, 0, 0, 0⟩
  else
    let st := (edgePairs loop).foldl bboxFromStep
      ⟨-DBL_MAX, DBL_MAX, -DBL_MAX, DBL_MAX, DBL_MAX, -DBL_MAX, false⟩
    if st.isTransmeridian then ⟨st.north, st.south, st.maxNegLng, st.minPosLng⟩
    else ⟨st.north, st.south, st.east, st.west⟩

/-- The while-loop of isClockwiseNormalized (polygonAlgos.h lines 334-344):
returns none when a transmeridian arc is found while not in transmeridian
mode (the C code then discards the partial sum and restarts), otherwise the
final sum. -/
def isClockwiseScan (isT : Bool) : List (LatLng × LatLng) → ℚ → Option ℚ
  | [], sum => some sum
  | (a, b) :: rest, sum =>
    if isT = false ∧ M_PI < |a.lng - b.lng| then none
    else
      isClockwiseScan isT rest
        (sum + (NORMALIZE_LNG b.lng isT - NORMALIZE_LNG a.lng isT) *
          (b.lat + a.lat))

/-- isClockwiseNormalized (polygonAlgos.h lines 327-347), instantiated for
GeoLoop.  The none branch of the first scan corresponds to the C self-call
with the transmeridian flag set; a scan in transmeridian mode never returns
none, so the final fallback is unreachable. -/
def isClockwiseNormalizedGeoLoop (loop : GeoLoop) (isTransmeridian : Bool) :
    Bool :=
  match isClockwiseScan isTransmeridian (edgePairs loop) 0 with
  | some sum => decide (0 < sum)
  | none =>
    match isClockwiseScan true (edgePairs loop) 0 with
    | some sum => decide (0 < sum)
    | none => false

/-- isClockwise (polygonAlgos.h lines 355-357), instantiated for GeoLoop. -/
def isClockwiseGeoLoop (loop : GeoLoop) : Bool :=
  isClockwiseNormalizedGeoLoop loop false

/-- Access into a bounding-box set (a C BBox array); the algorithms only read
indices that the caller has filled, so the default value is irrelevant. -/
def getBBox (bboxes : List BBox) (i : ℕ) : BBox :=
  bboxes.getD i ⟨0, 0, 0, 0⟩

/-- Access into a polygon's hole array. -/
def getHole (geoPolygon : GeoPolygon) (i : ℕ) : GeoLoop :=
  geoPolygon.holes.getD i []

/-- bboxesFromGeoPolygon (polygon.c lines 50-55): one box for the outer loop
at index 0 and one for each hole at indices 1..numHoles. -/
def bboxesFromGeoPolygon (polygon : GeoPolygon) : List BBox :=
  bboxFromGeoLoop polygon.geoloop :: polygon.holes.map bboxFromGeoLoop

/-- pointInsidePolygon (polygon.c lines 66-85): contained in the primary
geoloop and, if so, in none of the holes. -/
def pointInsidePolygon (geoPolygon : GeoPolygon) (bboxes : List BBox)
    (coord : LatLng) : Bool :=
  let contains := pointInsideGeoLoop geoPolygon.geoloop (getBBox bboxes 0) coord
  if contains && decide (0 < geoPolygon.holes.length) then
    !(List.range geoPolygon.holes.length).any fun i =>
      pointInsideGeoLoop (getHole geoPolygon i) (getBBox bboxes (i + 1)) coord
  else contains

/-- geoLoopInsidePolygon (polygon.c lines 87-133). -/
def geoLoopInsidePolygon (geoPolygon : GeoPolygon) (bboxes : List BBox)
    (loop : GeoLoop) : Bool :=
  -- check for loop points that are outside of the polygon
  if loop.any (fun v => !pointInsidePolygon geoPolygon bboxes v) then false
  else if loop.length < 2 then decide (loop.length ≠ 0)
  -- check for hole points inside the loop
  else if 2 < loop.length ∧ 0 < geoPolygon.holes.length ∧
      (geoPolygon.holes.any fun hole =>
        hole.any fun v => pointInsideGeoLoop loop (bboxFromGeoLoop loop) v) then
    false
  -- check for loop segments intersecting the outer loop or the holes
  else if (edgePairs loop).any (fun e =>
      segmentIntersectsGeoLoop geoPolygon.geoloop (getBBox bboxes 0) e.1 e.2 ||
        (List.range geoPolygon.holes.length).any fun j =>
          segmentIntersectsGeoLoop (getHole geoPolygon j)
            (getBBox bboxes (j + 1)) e.1 e.2) then false
  else true

/-- The inner hole loop of the vertex scan of geoLoopIntersectsPolygon
(polygon.c lines 151-163): the first hole (in index order) whose loop,
paired with its box bboxes[j+1], contains the coordinate. -/
def firstContainingHole (geoPolygon : GeoPolygon) (bboxes : List BBox)
    (coord : LatLng) : Option ℕ :=
  (List.range geoPolygon.holes.length).find? fun j =>
    pointInsideGeoLoop (getHole geoPolygon j) (getBBox bboxes (j + 1)) coord

/-- The vertex scan of geoLoopIntersectsPolygon (polygon.c lines 143-168).
Returns none when the C code returns true early, and some holeIndex when the
scan runs to completion (holeIndex = -1 when no vertex was recorded in a
hole).  Mirrors the guard on line 154: the early return fires only for a
hole of index j > 0 that differs from the recorded holeIndex. -/
def intersectsScan (geoPolygon : GeoPolygon) (bboxes : List BBox) :
    List LatLng → ℤ → Option ℤ
  | [], holeIndex => some holeIndex
  | coord :: rest, holeIndex =>
    let contains := pointInsideGeoLoop geoPolygon.geoloop (getBBox bboxes 0) coord
    if contains then
      match firstContainingHole geoPolygon bboxes coord with
      | some j =>
        if 0 < j ∧ holeIndex ≠ (j : ℤ) then none
        else intersectsScan geoPolygon bboxes rest (j : ℤ)
      | none => none
    else intersectsScan geoPolygon bboxes rest holeIndex

/-- geoLoopIntersectsPolygon (polygon.c lines 135-194).  After a completed
scan, segments are checked against the outer loop with bboxes[0] when
holeIndex = -1, and against holes[holeIndex] paired with bboxes[holeIndex]
otherwise — the index used on line 181 is holeIndex, not holeIndex + 1. -/
def geoLoopIntersectsPolygon (geoPolygon : GeoPolygon) (bboxes : List BBox)
    (loop : GeoLoop) : Bool :=
  match intersectsScan geoPolygon bboxes loop (-1) with
  | none => true
  | some holeIndex =>
    if 1 < loop.length then
      let geoloop :=
        if holeIndex = -1 then geoPolygon.geoloop
        else getHole geoPolygon holeIndex.toNat
      let bbox :=
        if holeIndex = -1 then getBBox bboxes 0
        else getBBox bboxes holeIndex.toNat
      (edgePairs loop).any fun e =>
        segmentIntersectsGeoLoop geoloop bbox e.1 e.2
    else false

/-- Modelled from the spec, for comparison with the source: the segment
phase of geoLoopIntersectsPolygon as the specification words it, pairing
the hole's loop with "that hole's own bounding box, which per the
bounding-box-set layout is bboxes[j+1]".  Identical to
geoLoopIntersectsPolygon except for that bounding-box index. -/
def geoLoopIntersectsPolygonSpec (geoPolygon : GeoPolygon) (bboxes : List BBox)
    (loop : GeoLoop) : Bool :=
  match intersectsScan geoPolygon bboxes loop (-1) with
  | none => true
  | some holeIndex =>
    if 1 < loop.length then
      let geoloop :=
        if holeIndex = -1 then geoPolygon.geoloop
        else getHole geoPolygon holeIndex.toNat
      let bbox :=
        if holeIndex = -1 then getBBox bboxes 0
        else getBBox bboxes (holeIndex.toNat + 1)
      (edgePairs loop).any fun e =>
        segmentIntersectsGeoLoop geoloop bbox e.1 e.2
    else false

/-- A loop has a transmeridian edge when some edge's longitude delta exceeds
pi (the restart condition of isClockwiseNormalized and the transmeridian
flag condition of bboxFrom). -/
def hasTransmeridianEdge (loop : GeoLoop) : Bool :=
  (edgePairs loop).any fun e => decide (M_PI < |e.1.lng - e.2.lng|)

/-- Shoelace-style signed-area sum named by the spec: sum over all edges of
(lng_b - lng_a) * (lat_b + lat_a), with longitudes normalized when the
transmeridian flag is set. -/
def shoelaceSum (loop : GeoLoop) (isTransmeridian : Bool) : ℚ :=
  ((edgePairs loop).map fun e =>
    (NORMALIZE_LNG e.2.lng isTransmeridian -
      NORMALIZE_LNG e.1.lng isTransmeridian) * (e.2.lat + e.1.lat)).sum

/-- The negative longitudes occurring among a loop's vertices. -/
def negLngs (loop : GeoLoop) : List ℚ :=
  (loop.map LatLng.lng).filter fun l => decide (l < 0)

/-- The positive longitudes occurring among a loop's vertices. -/
def posLngs (loop : GeoLoop) : List ℚ :=
  (loop.map LatLng.lng).filter fun l => decide (0 < l)

/-- Unit-square fixture of testPolygon.c (pointInsideGeoLoopCornerCases):
vertex list [(0,0),(1,0),(1,1),(0,1)]. -/
def unitSqLoop : GeoLoop := [⟨0, 0⟩, ⟨1, 0⟩, ⟨1, 1⟩, ⟨0, 1⟩]

/-- The unit square's derived bounding box. -/
def unitSqBbox : BBox := bboxFromGeoLoop unitSqLoop

/-- Transmeridian fixture of testPolygon.c (pointInsideGeoLoopTransmeridian):
verts {(0.01, -pi+0.01), (0.01, pi-0.01), (-0.01, pi-0.01),
(-0.01, -pi+0.01)}. -/
def tmLoop4 : GeoLoop :=
  [⟨1/100, -M_PI + 1/100⟩, ⟨1/100, M_PI - 1/100⟩,
   ⟨-1/100, M_PI - 1/100⟩, ⟨-1/100, -M_PI + 1/100⟩]

/-- The transmeridian fixture's derived bounding box. -/
def tmBbox4 : BBox := bboxFromGeoLoop tmLoop4

/-- Transmeridian bbox fixture of testPolygon.c
(bboxFromGeoLoopTransmeridian): verts spanning (plus-minus)(pi-0.1) to
(plus-minus)(pi-0.2). -/
def tmLoop6 : GeoLoop :=
  [⟨1/10, -M_PI + 1/10⟩, ⟨1/10, M_PI - 1/10⟩, ⟨1/20, M_PI - 2/10⟩,
   ⟨-1/10, M_PI - 1/10⟩, ⟨-1/10, -M_PI + 1/10⟩, ⟨-1/20, -M_PI + 2/10⟩]

/-- Two-hole polygon fixture of testPolygon.c
(geoLoopIntersectsPolygonWithHoles): unit-square outer loop, hole 0 at
longitudes 0.1..0.4 and hole 1 at longitudes 0.6..0.9. -/
def holePoly : GeoPolygon :=
  ⟨[⟨0, 0⟩, ⟨0, 1⟩, ⟨1, 1⟩, ⟨1, 0⟩],
   [[⟨1/10, 1/10⟩, ⟨1/10, 4/10⟩, ⟨4/10, 4/10⟩, ⟨4/10, 1/10⟩],
    [⟨1/10, 6/10⟩, ⟨1/10, 9/10⟩, ⟨4/10, 9/10⟩, ⟨4/10, 6/10⟩]]⟩

/-- Bounding-box set of the two-hole polygon fixture. -/
def holeBbs : List BBox := bboxesFromGeoPolygon holePoly

/-- U-shaped transmeridian hole used to separate the two bounding-box
pairings of the segment phase of geoLoopIntersectsPolygon: an antimeridian
analogue placed at longitude 3 (edge from lng 2.9 to lng -3 spans more than
pi), notch between longitudes 3 and 3.05. -/
def holeC2 : GeoLoop :=
  [⟨-1/10, 29/10⟩, ⟨-1/10, -3⟩, ⟨1/10, -3⟩, ⟨1/10, 305/100⟩,
   ⟨-5/100, 305/100⟩, ⟨-5/100, 3⟩, ⟨1/10, 3⟩, ⟨1/10, 29/10⟩]

/-- Outer loop for the bounding-box-pairing fixture: a quadrilateral away
from the date line whose bbox is not transmeridian. -/
def outerC2 : GeoLoop := [⟨-1, 2⟩, ⟨1, 2⟩, ⟨1, 313/100⟩, ⟨-1, 313/100⟩]

/-- Polygon for the bounding-box-pairing fixture: one transmeridian U-shaped
hole inside a non-transmeridian outer loop. -/
def polyC2 : GeoPolygon := ⟨outerC2, [holeC2]⟩

/-- Bounding-box set of the bounding-box-pairing fixture. -/
def bbC2 : List BBox := bboxesFromGeoPolygon polyC2

/-- Candidate loop for the bounding-box-pairing fixture: two vertices in the
two prongs of the U-shaped hole, whose connecting segment crosses the
notch. -/
def loopC2 : GeoLoop := [⟨5/100, 295/100⟩, ⟨5/100, 31/10⟩]

/-- Clockwise transmeridian loop used as witness input for the
isClockwise restart: edge longitude deltas of 6 exceed pi. -/
def cwTransLoop : GeoLoop :=
  [⟨4/10, 3⟩, ⟨4/10, -3⟩, ⟨-4/10, -3⟩, ⟨-4/10, 3⟩]

/-- The running max-negative-longitude accumulation of bboxFrom, as a scalar
fold (the maxNegLng component of the scan state). -/
def maxNegFold (ls : List ℚ) (m : ℚ) : ℚ :=
  ls.foldl (fun m l => if l < 0 ∧ m < l then l else m) m

/-- The running min-positive-longitude accumulation of bboxFrom, as a scalar
fold (the minPosLng component of the scan state). -/
def minPosFold (ls : List ℚ) (m : ℚ) : ℚ :=
  ls.foldl (fun m l => if 0 < l ∧ l < m then l else m) m

/-- C10: for every polygon and bounding-box set, geoLoopIntersectsPolygon on
a candidate loop with zero vertices returns false (the vertex scan and the
edge check are both vacuous). -/
theorem geoLoopIntersectsPolygon_empty_loop :
    ∀ (geoPolygon : GeoPolygon) (bboxes : List BBox),
      geoLoopIntersectsPolygon geoPolygon bboxes [] = false := by
  intro p b
  simp [geoLoopIntersectsPolygon, intersectsScan]

/-- C9: geoLoopInsidePolygon returns false on a candidate loop with zero
vertices, and on a one-vertex candidate it returns exactly the result of
the pointInsidePolygon check on that vertex. -/
theorem geoLoopInsidePolygon_degenerate :
    ∀ (geoPolygon : GeoPolygon) (bboxes : List BBox),
      geoLoopInsidePolygon geoPolygon bboxes [] = false ∧
      ∀ v : LatLng,
        geoLoopInsidePolygon geoPolygon bboxes [v] =
          pointInsidePolygon geoPolygon bboxes v := by
  intro p b
  constructor
  · simp [geoLoopInsidePolygon]
  · intro v
    cases h : pointInsidePolygon p b v <;>
      simp [geoLoopInsidePolygon, h]

/-- C5: pointInsidePolygon holds exactly when the coordinate is inside the
outer loop (tested with bboxes[0]) and inside none of the holes (hole i
tested with bboxes[i+1]). -/
theorem pointInsidePolygon_iff :
    ∀ (geoPolygon : GeoPolygon) (bboxes : List BBox) (coord : LatLng),
      pointInsidePolygon geoPolygon bboxes coord = true ↔
        (pointInsideGeoLoop geoPolygon.geoloop (getBBox bboxes 0) coord = true ∧
          ∀ i < geoPolygon.holes.length,
            pointInsideGeoLoop (getHole geoPolygon i) (getBBox bboxes (i + 1))
              coord = false) := by
  intro p b c
  unfold pointInsidePolygon
  cases h : pointInsideGeoLoop p.geoloop (getBBox b 0) c
  · simp [h]
  · by_cases hl : 0 < p.holes.length
    · simp [h, hl, Bool.not_eq_true', List.any_eq_false, List.mem_range]
    · simp [h, hl, Nat.le_zero.mp (Nat.not_lt.mp hl)]

/-- C8: segmentIntersects returns false on every empty loop; and for every
loop and bbox it returns false whenever both segment endpoints lie strictly
beyond the same raw bbox bound (no wraparound correction, so this also
applies to transmeridian boxes). -/
theorem segmentIntersects_empty_or_fastreject :
    ∀ (loop : GeoLoop) (bbox : BBox) (p0 p1 : LatLng),
      segmentIntersectsGeoLoop [] bbox p0 p1 = false ∧
      ((bbox.north < p0.lat ∧ bbox.north < p1.lat) ∨
        (bbox.east < p0.lng ∧ bbox.east < p1.lng) ∨
        (p0.lat < bbox.south ∧ p1.lat < bbox.south) ∨
        (p0.lng < bbox.west ∧ p1.lng < bbox.west) →
        segmentIntersectsGeoLoop loop bbox p0 p1 = false) := by
  intro loop bbox p0 p1
  refine ⟨by simp [segmentIntersectsGeoLoop], fun h => ?_⟩
  by_cases he : loop.isEmpty
  · simp [segmentIntersectsGeoLoop, he]
  · simp [segmentIntersectsGeoLoop, he, h]

/-- In transmeridian mode the isClockwise scan never restarts: it returns
the accumulated normalized shoelace sum. -/
theorem isClockwiseScan_true_eq (edges : List (LatLng × LatLng)) :
    ∀ s : ℚ,
      isClockwiseScan true edges s =
        some (s + ((edges.map fun e =>
          (NORMALIZE_LNG e.2.lng true - NORMALIZE_LNG e.1.lng true) *
            (e.2.lat + e.1.lat)).sum)) := by
  induction edges with
  | nil => intro s; simp [isClockwiseScan]
  | cons e rest ih =>
    intro s
    obtain ⟨a, b⟩ := e
    rw [isClockwiseScan,
      if_neg (show ¬(true = false ∧ M_PI < |a.lng - b.lng|) from
        fun hc => by cases hc.1),
      ih]
    congr 1
    simp only [List.map_cons, List.sum_cons]
    ring

/-- Without a transmeridian edge, the un-normalized scan completes with the
raw shoelace sum. -/
theorem isClockwiseScan_false_eq (edges : List (LatLng × LatLng))
    (hno : ∀ e ∈ edges, ¬ M_PI < |e.1.lng - e.2.lng|) :
    ∀ s : ℚ,
      isClockwiseScan false edges s =
        some (s + ((edges.map fun e =>
          (NORMALIZE_LNG e.2.lng false - NORMALIZE_LNG e.1.lng false) *
            (e.2.lat + e.1.lat)).sum)) := by
  induction edges with
  | nil => intro s; simp [isClockwiseScan]
  | cons e rest ih =>
    intro s
    obtain ⟨a, b⟩ := e
    rw [isClockwiseScan,
      if_neg (show ¬(false = false ∧ M_PI < |a.lng - b.lng|) from
        fun hc => hno (a, b) (List.mem_cons_self _ _) hc.2),
      ih (fun x hx => hno x (List.mem_cons_of_mem _ hx))]
    congr 1
    simp only [List.map_cons, List.sum_cons]
    ring

/-- With a transmeridian edge present, the un-normalized scan aborts (the C
code restarts in transmeridian mode). -/
theorem isClockwiseScan_false_none (edges : List (LatLng × LatLng))
    (hex : ∃ e ∈ edges, M_PI < |e.1.lng - e.2.lng|) :
    ∀ s : ℚ, isClockwiseScan false edges s = none := by
  induction edges with
  | nil => simp at hex
  | cons e rest ih =>
    intro s
    obtain ⟨a, b⟩ := e
    rw [isClockwiseScan]
    by_cases hab : M_PI < |a.lng - b.lng|
    · rw [if_pos (show false = false ∧ M_PI < |a.lng - b.lng| from ⟨rfl, hab⟩)]
    · rw [if_neg (show ¬(false = false ∧ M_PI < |a.lng - b.lng|) from
        fun hc => hab hc.2)]
      rcases hex with ⟨f, hf, hfp⟩
      rcases List.mem_cons.mp hf with hf1 | hf2
      · rw [hf1] at hfp
        exact absurd hfp hab
      · exact ih ⟨f, hf2, hfp⟩ _

/-- C6: isClockwise is true exactly when the shoelace sum of
(lng_b - lng_a) * (lat_b + lat_a) over all edges is positive (accumulated
with per-edge longitude normalization exactly when some edge's longitude
delta exceeds pi); and on a loop with such an edge the un-normalized pass
is discarded and the result equals isClockwiseNormalized with the
transmeridian flag set. -/
theorem isClockwise_shoelace :
    ∀ loop : GeoLoop,
      (isClockwiseGeoLoop loop = true ↔
        0 < shoelaceSum loop (hasTransmeridianEdge loop)) ∧
      (hasTransmeridianEdge loop = true →
        isClockwiseGeoLoop loop = isClockwiseNormalizedGeoLoop loop true) := by
  intro loop
  by_cases h : hasTransmeridianEdge loop = true
  · have hex : ∃ e ∈ edgePairs loop, M_PI < |e.1.lng - e.2.lng| := by
      have hh := h
      simp only [hasTransmeridianEdge, List.any_eq_true, decide_eq_true_eq]
        at hh
      exact hh
    have h0 := isClockwiseScan_false_none (edgePairs loop) hex 0
    have h1 := isClockwiseScan_true_eq (edgePairs loop) 0
    constructor
    · rw [h, isClockwiseGeoLoop, isClockwiseNormalizedGeoLoop, h0, h1]
      simp [shoelaceSum]
    · intro _
      rw [isClockwiseGeoLoop, isClockwiseNormalizedGeoLoop, h0, h1,
        isClockwiseNormalizedGeoLoop, h1]
  · have hno : ∀ e ∈ edgePairs loop, ¬ M_PI < |e.1.lng - e.2.lng| := by
      intro e he hc
      apply h
      simp only [hasTransmeridianEdge, List.any_eq_true, decide_eq_true_eq]
      exact ⟨e, he, hc⟩
    have h0 := isClockwiseScan_false_eq (edgePairs loop) hno 0
    refine ⟨?_, fun hc => absurd hc h⟩
    rw [Bool.not_eq_true] at h
    rw [h, isClockwiseGeoLoop, isClockwiseNormalizedGeoLoop, h0]
    simp [shoelaceSum]

/-- Witness for C6: a concrete clockwise loop with a transmeridian edge; its
restarted pass is positive and equals the transmeridian-normalized run. -/
theorem isClockwise_shoelace_witness :
    hasTransmeridianEdge cwTransLoop = true ∧
    isClockwiseGeoLoop cwTransLoop = isClockwiseNormalizedGeoLoop cwTransLoop
      true := by
  have ht : hasTransmeridianEdge cwTransLoop = true := by
    norm_num [hasTransmeridianEdge, cwTransLoop, edgePairs, List.rotate,
      List.any, M_PI, abs]
  exact ⟨ht, (isClockwise_shoelace cwTransLoop).2 ht⟩

/-- The first components of a loop's edge pairs are the loop's vertices. -/
theorem edgePairs_map_fst (loop : GeoLoop) :
    (edgePairs loop).map Prod.fst = loop := by
  unfold edgePairs
  exact List.map_fst_zip _ _ (le_of_eq (List.length_rotate loop 1).symm)

/-- Both endpoints of an edge pair are vertices of the loop. -/
theorem mem_of_mem_edgePairs (loop : GeoLoop) (e : LatLng × LatLng)
    (he : e ∈ edgePairs loop) : e.1 ∈ loop ∧ e.2 ∈ loop := by
  obtain ⟨a, b⟩ := e
  unfold edgePairs at he
  have h := List.of_mem_zip he
  exact ⟨h.1, (List.mem_rotate).mp h.2⟩

/-- The transmeridian flag accumulated by the bboxFrom pass is the
disjunction of the initial flag with the per-edge longitude-delta checks. -/
theorem bboxFold_isTransmeridian (edges : List (LatLng × LatLng)) :
    ∀ st : BBoxScanState,
      (edges.foldl bboxFromStep st).isTransmeridian =
        (st.isTransmeridian ||
          edges.any fun e => decide (M_PI < |e.1.lng - e.2.lng|)) := by
  induction edges with
  | nil => intro st; simp
  | cons e rest ih =>
    intro st
    rw [List.foldl_cons, ih, List.any_cons]
    have hstep : (bboxFromStep st e).isTransmeridian =
        (st.isTransmeridian || decide (M_PI < |e.1.lng - e.2.lng|)) := rfl
    rw [hstep, Bool.or_assoc]

/-- The maxNegLng component of the bboxFrom pass is the scalar max-negative
fold over the first components of the edges. -/
theorem bboxFold_maxNegLng (edges : List (LatLng × LatLng)) :
    ∀ st : BBoxScanState,
      (edges.foldl bboxFromStep st).maxNegLng =
        maxNegFold (edges.map fun e => e.1.lng) st.maxNegLng := by
  induction edges with
  | nil => intro st; rfl
  | cons e rest ih =>
    intro st
    rw [List.foldl_cons, ih]
    rfl

/-- The minPosLng component of the bboxFrom pass is the scalar min-positive
fold over the first components of the edges. -/
theorem bboxFold_minPosLng (edges : List (LatLng × LatLng)) :
    ∀ st : BBoxScanState,
      (edges.foldl bboxFromStep st).minPosLng =
        minPosFold (edges.map fun e => e.1.lng) st.minPosLng := by
  induction edges with
  | nil => intro st; rfl
  | cons e rest ih =>
    intro st
    rw [List.foldl_cons, ih]
    rfl

/-- The max-negative fold either keeps its seed or returns a negative list
element; it never decreases the seed and dominates every negative element. -/
theorem maxNegFold_spec (ls : List ℚ) :
    ∀ m : ℚ,
      (maxNegFold ls m = m ∨ (maxNegFold ls m ∈ ls ∧ maxNegFold ls m < 0)) ∧
      m ≤ maxNegFold ls m ∧
      ∀ l ∈ ls, l < 0 → l ≤ maxNegFold ls m := by
  induction ls with
  | nil => intro m; exact ⟨Or.inl rfl, le_refl m, by simp⟩
  | cons x xs ih =>
    intro m
    have hstep : maxNegFold (x :: xs) m =
        maxNegFold xs (if x < 0 ∧ m < x then x else m) := rfl
    by_cases hc : x < 0 ∧ m < x
    · rw [hstep, if_pos hc]
      obtain ⟨hcase, hle, hbound⟩ := ih x
      refine ⟨?_, le_trans (le_of_lt hc.2) hle, ?_⟩
      · rcases hcase with h1 | h1
        · refine Or.inr ⟨?_, ?_⟩
          · rw [h1]; exact List.mem_cons_self _ _
          · rw [h1]; exact hc.1
        · exact Or.inr ⟨List.mem_cons_of_mem _ h1.1, h1.2⟩
      · intro l hl hlneg
        rcases List.mem_cons.mp hl with h1 | h1
        · exact h1 ▸ hle
        · exact hbound l h1 hlneg
    · rw [hstep, if_neg hc]
      obtain ⟨hcase, hle, hbound⟩ := ih m
      refine ⟨?_, hle, ?_⟩
      · rcases hcase with h1 | h1
        · exact Or.inl h1
        · exact Or.inr ⟨List.mem_cons_of_mem _ h1.1, h1.2⟩
      · intro l hl hlneg
        rcases List.mem_cons.mp hl with h1 | h1
        · subst h1
          have : ¬ m < l := fun hml => hc ⟨hlneg, hml⟩
          exact le_trans (le_of_not_lt this) hle
        · exact hbound l h1 hlneg

/-- The min-positive fold either keeps its seed or returns a positive list
element; it never increases the seed and lower-bounds every positive
element. -/
theorem minPosFold_spec (ls : List ℚ) :
    ∀ m : ℚ,
      (minPosFold ls m = m ∨ (minPosFold ls m ∈ ls ∧ 0 < minPosFold ls m)) ∧
      minPosFold ls m ≤ m ∧
      ∀ l ∈ ls, 0 < l → minPosFold ls m ≤ l := by
  induction ls with
  | nil => intro m; exact ⟨Or.inl rfl, le_refl m, by simp⟩
  | cons x xs ih =>
    intro m
    have hstep : minPosFold (x :: xs) m =
        minPosFold xs (if 0 < x ∧ x < m then x else m) := rfl
    by_cases hc : 0 < x ∧ x < m
    · rw [hstep, if_pos hc]
      obtain ⟨hcase, hle, hbound⟩ := ih x
      refine ⟨?_, le_trans hle (le_of_lt hc.2), ?_⟩
      · rcases hcase with h1 | h1
        · refine Or.inr ⟨?_, ?_⟩
          · rw [h1]; exact List.mem_cons_self _ _
          · rw [h1]; exact hc.1
        · exact Or.inr ⟨List.mem_cons_of_mem _ h1.1, h1.2⟩
      · intro l hl hlpos
        rcases List.mem_cons.mp hl with h1 | h1
        · exact h1 ▸ hle
        · exact hbound l h1 hlpos
    · rw [hstep, if_neg hc]
      obtain ⟨hcase, hle, hbound⟩ := ih m
      refine ⟨?_, hle, ?_⟩
      · rcases hcase with h1 | h1
        · exact Or.inl h1
        · exact Or.inr ⟨List.mem_cons_of_mem _ h1.1, h1.2⟩
      · intro l hl hlpos
        rcases List.mem_cons.mp hl with h1 | h1
        · subst h1
          have : ¬ l < m := fun hml => hc ⟨hlpos, hml⟩
          exact le_trans hle (le_of_not_lt this)
        · exact hbound l h1 hlpos

/-- A longitude pair within (-pi, pi] whose difference exceeds pi consists of
one strictly negative and one strictly positive value. -/
theorem sign_split_of_trans_edge (a b : ℚ)
    (ha1 : -M_PI < a) (ha2 : a ≤ M_PI) (hb1 : -M_PI < b) (hb2 : b ≤ M_PI)
    (h : M_PI < |a - b|) : (a < 0 ∧ 0 < b) ∨ (b < 0 ∧ 0 < a) := by
  have hpi : 0 < M_PI := by norm_num [M_PI]
  rcases lt_abs.mp h with h1 | h1
  · exact Or.inr ⟨by linarith, by linarith⟩
  · exact Or.inl ⟨by linarith, by linarith⟩

/-- The longitudes of a loop's edge-pair first components are the loop's
vertex longitudes. -/
theorem edgePairs_map_fst_lng (loop : GeoLoop) :
    ((edgePairs loop).map fun e => e.1.lng) = loop.map LatLng.lng := by
  have h : ((edgePairs loop).map fun e => e.1.lng) =
      ((edgePairs loop).map Prod.fst).map LatLng.lng := by
    rw [List.map_map]
    rfl
  rw [h, edgePairs_map_fst]

/-- On a nonempty loop with a transmeridian edge, bboxFrom swaps east/west
to the tracked max-negative and min-positive longitudes. -/
theorem bboxFromGeoLoop_trans (loop : GeoLoop) (hne : loop.isEmpty = false)
    (htrans : hasTransmeridianEdge loop = true) :
    (bboxFromGeoLoop loop).east = maxNegFold (loop.map LatLng.lng) (-DBL_MAX) ∧
    (bboxFromGeoLoop loop).west = minPosFold (loop.map LatLng.lng) DBL_MAX := by
  have hflag : ((edgePairs loop).foldl bboxFromStep
      ⟨-DBL_MAX, DBL_MAX, -DBL_MAX, DBL_MAX, DBL_MAX, -DBL_MAX, false⟩).isTransmeridian
      = true := by
    rw [bboxFold_isTransmeridian]
    simpa [hasTransmeridianEdge] using htrans
  unfold bboxFromGeoLoop
  rw [hne]
  simp only [Bool.false_eq_true, if_false, hflag, if_true]
  constructor
  · rw [bboxFold_maxNegLng, edgePairs_map_fst_lng]
  · rw [bboxFold_minPosLng, edgePairs_map_fst_lng]

/-- C7: bboxFrom yields the all-zero box on the empty loop; on the literal
transmeridian fixture it yields {north 0.1, south -0.1, east -pi+0.2,
west pi-0.2}; and on any loop (with longitudes in (-pi, pi]) that has an
edge whose longitude delta exceeds pi, the box's east is the maximum
negative longitude seen, its west is the minimum positive longitude seen,
and west > east. -/
theorem bboxFrom_empty_and_transmeridian :
    bboxFromGeoLoop [] = ⟨0, 0, 0, 0⟩ ∧
    bboxFromGeoLoop tmLoop6 = ⟨1/10, -1/10, -M_PI + 2/10, M_PI - 2/10⟩ ∧
    ∀ loop : GeoLoop, (∀ v ∈ loop, -M_PI < v.lng ∧ v.lng ≤ M_PI) →
      hasTransmeridianEdge loop = true →
      ((bboxFromGeoLoop loop).east ∈ negLngs loop ∧
        (∀ l ∈ negLngs loop, l ≤ (bboxFromGeoLoop loop).east) ∧
        (bboxFromGeoLoop loop).west ∈ posLngs loop ∧
        (∀ l ∈ posLngs loop, (bboxFromGeoLoop loop).west ≤ l) ∧
        (bboxFromGeoLoop loop).east < (bboxFromGeoLoop loop).west) := by
  refine ⟨by simp [bboxFromGeoLoop], ?_, ?_⟩
  · norm_num [bboxFromGeoLoop, tmLoop6, edgePairs, List.rotate, List.foldl,
      bboxFromStep, DBL_MAX, M_PI, abs]
  · intro loop hrange htrans
    have hne : loop.isEmpty = false := by
      cases loop with
      | nil => exact absurd htrans (by norm_num [hasTransmeridianEdge, edgePairs])
      | cons a l => rfl
    obtain ⟨heast, hwest⟩ := bboxFromGeoLoop_trans loop hne htrans
    have hDM : M_PI < DBL_MAX := by norm_num [M_PI, DBL_MAX]
    have hex : ∃ e ∈ edgePairs loop, M_PI < |e.1.lng - e.2.lng| := by
      have hh := htrans
      simp only [hasTransmeridianEdge, List.any_eq_true, decide_eq_true_eq]
        at hh
      exact hh
    obtain ⟨e, he, hed⟩ := hex
    obtain ⟨hm1, hm2⟩ := mem_of_mem_edgePairs loop e he
    obtain ⟨ha1, ha2⟩ := hrange e.1 hm1
    obtain ⟨hb1, hb2⟩ := hrange e.2 hm2
    have hnegpos : (∃ l ∈ loop.map LatLng.lng, l < 0) ∧
        ∃ l ∈ loop.map LatLng.lng, 0 < l := by
      rcases sign_split_of_trans_edge e.1.lng e.2.lng ha1 ha2 hb1 hb2 hed with
        ⟨hn, hp⟩ | ⟨hn, hp⟩
      · exact ⟨⟨e.1.lng, List.mem_map_of_mem _ hm1, hn⟩,
          ⟨e.2.lng, List.mem_map_of_mem _ hm2, hp⟩⟩
      · exact ⟨⟨e.2.lng, List.mem_map_of_mem _ hm2, hn⟩,
          ⟨e.1.lng, List.mem_map_of_mem _ hm1, hp⟩⟩
    obtain ⟨⟨ln, hln, hln0⟩, ⟨lp, hlp, hlp0⟩⟩ := hnegpos
    have hlnpi : -M_PI < ln := by
      obtain ⟨v, hv, hveq⟩ := List.mem_map.mp hln
      exact hveq ▸ (hrange v hv).1
    have hlppi : lp ≤ M_PI := by
      obtain ⟨v, hv, hveq⟩ := List.mem_map.mp hlp
      exact hveq ▸ (hrange v hv).2
    obtain ⟨hecase, _, hebound⟩ := maxNegFold_spec (loop.map LatLng.lng) (-DBL_MAX)
    obtain ⟨hwcase, _, hwbound⟩ := minPosFold_spec (loop.map LatLng.lng) DBL_MAX
    have heneg : maxNegFold (loop.map LatLng.lng) (-DBL_MAX) ∈ loop.map LatLng.lng ∧
        maxNegFold (loop.map LatLng.lng) (-DBL_MAX) < 0 := by
      rcases hecase with h1 | h1
      · exfalso
        have := hebound ln hln hln0
        rw [h1] at this
        linarith
      · exact h1
    have hwpos : minPosFold (loop.map LatLng.lng) DBL_MAX ∈ loop.map LatLng.lng ∧
        0 < minPosFold (loop.map LatLng.lng) DBL_MAX := by
      rcases hwcase with h1 | h1
      · exfalso
        have := hwbound lp hlp hlp0
        rw [h1] at this
        linarith
      · exact h1
    refine ⟨?_, ?_, ?_, ?_, ?_⟩
    · rw [heast]
      simp only [negLngs, List.mem_filter, decide_eq_true_eq]
      exact ⟨heneg.1, heneg.2⟩
    · intro l hl
      rw [heast]
      simp only [negLngs, List.mem_filter, decide_eq_true_eq] at hl
      exact hebound l hl.1 hl.2
    · rw [hwest]
      simp only [posLngs, List.mem_filter, decide_eq_true_eq]
      exact ⟨hwpos.1, hwpos.2⟩
    · intro l hl
      rw [hwest]
      simp only [posLngs, List.mem_filter, decide_eq_true_eq] at hl
      exact hwbound l hl.1 hl.2
    · rw [heast, hwest]
      exact lt_trans heneg.2 hwpos.2

/-- Witness for C7: the literal transmeridian fixture satisfies the
hypotheses of the general clause, and its box has west > east. -/
theorem bboxFrom_transmeridian_witness :
    hasTransmeridianEdge tmLoop6 = true ∧
    (bboxFromGeoLoop tmLoop6).east < (bboxFromGeoLoop tmLoop6).west := by
  have hr : ∀ v ∈ tmLoop6, -M_PI < v.lng ∧ v.lng ≤ M_PI := by
    intro v hv
    simp only [tmLoop6, List.mem_cons, List.not_mem_nil, or_false] at hv
    rcases hv with h | h | h | h | h | h <;> rw [h] <;>
      constructor <;> norm_num [M_PI]
  have ht : hasTransmeridianEdge tmLoop6 = true := by
    norm_num [hasTransmeridianEdge, tmLoop6, edgePairs, List.rotate, M_PI, abs]
  exact ⟨ht, (bboxFrom_empty_and_transmeridian.2.2 tmLoop6 hr ht).2.2.2.2⟩

/-- C4: for the transmeridian fixture loop and its derived bbox, pointInside
contains the point (0.001, -pi+0.001) just east of the date line and does
not contain the point (0.001, -pi+0.1) beyond the loop's extent. -/
theorem pointInside_transmeridian :
    pointInsideGeoLoop tmLoop4 tmBbox4 ⟨1/1000, -M_PI + 1/1000⟩ = true ∧
    pointInsideGeoLoop tmLoop4 tmBbox4 ⟨1/1000, -M_PI + 1/10⟩ = false := by
  constructor <;>
    norm_num [pointInsideGeoLoop, pointInsideStep, tmBbox4, tmLoop4,
      bboxFromGeoLoop, bboxFromStep, edgePairs, List.rotate, List.foldl,
      bboxContains, bboxIsTransmeridian, NORMALIZE_LNG, DBL_EPSILON, DBL_MAX,
      M_PI, M_2PI, abs]

/-- The unit square's derived bbox has north 1, south 0, east 1, west 0 and
is not transmeridian. -/
theorem unitSqBbox_eq : unitSqBbox = ⟨1, 0, 1, 0⟩ := by
  norm_num [unitSqBbox, bboxFromGeoLoop, bboxFromStep, edgePairs, unitSqLoop,
    List.rotate, List.foldl, DBL_MAX, M_PI, abs]

/-- When the bbox fast-fail passes, pointInside is the fold of the
ray-casting step over the loop's edges. -/
theorem pointInsideGeoLoop_eval (loop : GeoLoop) (bbox : BBox) (coord : LatLng)
    (hbc : bboxContains bbox coord = true) :
    pointInsideGeoLoop loop bbox coord =
      ((edgePairs loop).foldl (pointInsideStep (bboxIsTransmeridian bbox))
        (coord.lat, NORMALIZE_LNG coord.lng (bboxIsTransmeridian bbox),
          false)).2.2 := by
  unfold pointInsideGeoLoop
  rw [hbc]
  rfl

/-- The unit square's edge pairs, written out. -/
theorem edgePairs_unitSq :
    edgePairs unitSqLoop =
      [(⟨0, 0⟩, ⟨1, 0⟩), (⟨1, 0⟩, ⟨1, 1⟩), (⟨1, 1⟩, ⟨0, 1⟩),
        (⟨0, 1⟩, ⟨0, 0⟩)] := by
  rfl

/-- The unit square's bbox is not transmeridian. -/
theorem unitSq_not_transmeridian : bboxIsTransmeridian ⟨1, 0, 1, 0⟩ = false := by
  norm_num [bboxIsTransmeridian]

/-- Corner evaluation: the south-west corner is not contained. -/
theorem unitSq_sw_corner :
    pointInsideGeoLoop unitSqLoop unitSqBbox ⟨0, 0⟩ = false := by
  norm_num [pointInsideGeoLoop, pointInsideStep, unitSqBbox_eq, unitSqLoop,
    edgePairs, List.rotate, List.foldl,
    bboxContains, bboxIsTransmeridian, NORMALIZE_LNG, DBL_EPSILON]

/-- Corner evaluation: the north-west corner is not contained. -/
theorem unitSq_nw_corner :
    pointInsideGeoLoop unitSqLoop unitSqBbox ⟨1, 0⟩ = false := by
  norm_num [pointInsideGeoLoop, pointInsideStep, unitSqBbox_eq, unitSqLoop,
    edgePairs, List.rotate, List.foldl,
    bboxContains, bboxIsTransmeridian, NORMALIZE_LNG, DBL_EPSILON]

/-- Corner evaluation: the north-east corner is not contained. -/
theorem unitSq_ne_corner :
    pointInsideGeoLoop unitSqLoop unitSqBbox ⟨1, 1⟩ = false := by
  norm_num [pointInsideGeoLoop, pointInsideStep, unitSqBbox_eq, unitSqLoop,
    edgePairs, List.rotate, List.foldl,
    bboxContains, bboxIsTransmeridian, NORMALIZE_LNG, DBL_EPSILON]

/-- Corner evaluation: the south-east corner is contained. -/
theorem unitSq_se_corner :
    pointInsideGeoLoop unitSqLoop unitSqBbox ⟨0, 1⟩ = true := by
  norm_num [pointInsideGeoLoop, pointInsideStep, unitSqBbox_eq, unitSqLoop,
    edgePairs, List.rotate, List.foldl,
    bboxContains, bboxIsTransmeridian, NORMALIZE_LNG, DBL_EPSILON]

/-- Edge evaluation: interior points of the west edge are not contained. -/
theorem unitSq_west_edge (t : ℚ) (h0 : 0 < t) (h1 : t < 1) :
    pointInsideGeoLoop unitSqLoop unitSqBbox ⟨t, 0⟩ = false := by
  norm_num [pointInsideGeoLoop, pointInsideStep, unitSqBbox_eq, unitSqLoop,
    edgePairs, List.rotate, List.foldl,
    bboxContains, bboxIsTransmeridian, NORMALIZE_LNG, DBL_EPSILON,
    h0, h1, h0.le, h1.le, h0.ne, h1.ne, h0.ne', h1.ne', h0.asymm, h1.asymm]

/-- Edge evaluation: interior points of the north edge are not contained. -/
theorem unitSq_north_edge (t : ℚ) (h0 : 0 < t) (h1 : t < 1) :
    pointInsideGeoLoop unitSqLoop unitSqBbox ⟨1, t⟩ = false := by
  have hbc : bboxContains ⟨1, 0, 1, 0⟩ ⟨1, t⟩ = true := by
    simp [bboxContains, unitSq_not_transmeridian, h0.le, h1.le]
  rw [unitSqBbox_eq, pointInsideGeoLoop_eval _ _ _ hbc, edgePairs_unitSq,
    unitSq_not_transmeridian]
  have hn : NORMALIZE_LNG t false = t := by simp [NORMALIZE_LNG]
  have hs1 : pointInsideStep false (1, t, false) (⟨0, 0⟩, ⟨1, 0⟩) =
      (1 + DBL_EPSILON, t, false) := by
    norm_num [pointInsideStep, NORMALIZE_LNG, DBL_EPSILON]
  have hs2 : pointInsideStep false (1 + DBL_EPSILON, t, false)
      (⟨1, 0⟩, ⟨1, 1⟩) = (1 + DBL_EPSILON, t, false) := by
    norm_num [pointInsideStep, NORMALIZE_LNG, DBL_EPSILON]
  have hs3 : pointInsideStep false (1 + DBL_EPSILON, t, false)
      (⟨1, 1⟩, ⟨0, 1⟩) = (1 + DBL_EPSILON, t, false) := by
    norm_num [pointInsideStep, NORMALIZE_LNG, DBL_EPSILON]
  have hs4 : pointInsideStep false (1 + DBL_EPSILON, t, false)
      (⟨0, 1⟩, ⟨0, 0⟩) = (1 + DBL_EPSILON, t, false) := by
    norm_num [pointInsideStep, NORMALIZE_LNG, DBL_EPSILON]
  show (List.foldl _ (1, NORMALIZE_LNG t false, false) _).2.2 = false
  rw [hn]
  simp only [List.foldl_cons, List.foldl_nil, hs1, hs2, hs3, hs4]

/-- Edge evaluation: interior points of the east edge are contained. -/
theorem unitSq_east_edge (t : ℚ) (h0 : 0 < t) (h1 : t < 1) :
    pointInsideGeoLoop unitSqLoop unitSqBbox ⟨t, 1⟩ = true := by
  norm_num [pointInsideGeoLoop, pointInsideStep, unitSqBbox_eq, unitSqLoop,
    edgePairs, List.rotate, List.foldl,
    bboxContains, bboxIsTransmeridian, NORMALIZE_LNG, DBL_EPSILON,
    h0, h1, h0.le, h1.le, h0.ne, h1.ne, h0.ne', h1.ne', h0.asymm, h1.asymm]

/-- Edge evaluation: interior points of the south edge are contained. -/
theorem unitSq_south_edge (t : ℚ) (h0 : 0 < t) (h1 : t < 1) :
    pointInsideGeoLoop unitSqLoop unitSqBbox ⟨0, t⟩ = true := by
  have hbc : bboxContains ⟨1, 0, 1, 0⟩ ⟨0, t⟩ = true := by
    simp [bboxContains, unitSq_not_transmeridian, h0.le, h1.le]
  rw [unitSqBbox_eq, pointInsideGeoLoop_eval _ _ _ hbc, edgePairs_unitSq,
    unitSq_not_transmeridian]
  have hn : NORMALIZE_LNG t false = t := by simp [NORMALIZE_LNG]
  have hs1 : pointInsideStep false (0, t, false) (⟨0, 0⟩, ⟨1, 0⟩) =
      (DBL_EPSILON, t, false) := by
    norm_num [pointInsideStep, NORMALIZE_LNG, DBL_EPSILON, h0.ne, h0.asymm]
  have hs2 : pointInsideStep false (DBL_EPSILON, t, false) (⟨1, 0⟩, ⟨1, 1⟩) =
      (DBL_EPSILON, t, false) := by
    norm_num [pointInsideStep, NORMALIZE_LNG, DBL_EPSILON]
  have hs3 : pointInsideStep false (DBL_EPSILON, t, false) (⟨1, 1⟩, ⟨0, 1⟩) =
      (DBL_EPSILON, t, true) := by
    norm_num [pointInsideStep, NORMALIZE_LNG, DBL_EPSILON, h1.ne', h1]
  have hs4 : pointInsideStep false (DBL_EPSILON, t, true) (⟨0, 1⟩, ⟨0, 0⟩) =
      (DBL_EPSILON, t, true) := by
    norm_num [pointInsideStep, NORMALIZE_LNG, DBL_EPSILON]
  show (List.foldl _ (0, NORMALIZE_LNG t false, false) _).2.2 = true
  rw [hn]
  simp only [List.foldl_cons, List.foldl_nil, hs1, hs2, hs3, hs4]

/-- C3: on the axis-aligned unit square and its derived bbox, pointInside
excludes the corners (lat 0, lng 0), (lat 1, lng 0) and (lat 1, lng 1) and
includes only (lat 0, lng 1), the corner on the east and south edges; every
interior point of the west (lng 0) and north (lat 1) edges is excluded and
every interior point of the east (lng 1) and south (lat 0) edges is
included. -/
theorem pointInside_unitSquare_boundary :
    pointInsideGeoLoop unitSqLoop unitSqBbox ⟨0, 0⟩ = false ∧
    pointInsideGeoLoop unitSqLoop unitSqBbox ⟨1, 0⟩ = false ∧
    pointInsideGeoLoop unitSqLoop unitSqBbox ⟨1, 1⟩ = false ∧
    pointInsideGeoLoop unitSqLoop unitSqBbox ⟨0, 1⟩ = true ∧
    (∀ t : ℚ, 0 < t → t < 1 →
      pointInsideGeoLoop unitSqLoop unitSqBbox ⟨t, 0⟩ = false) ∧
    (∀ t : ℚ, 0 < t → t < 1 →
      pointInsideGeoLoop unitSqLoop unitSqBbox ⟨1, t⟩ = false) ∧
    (∀ t : ℚ, 0 < t → t < 1 →
      pointInsideGeoLoop unitSqLoop unitSqBbox ⟨t, 1⟩ = true) ∧
    (∀ t : ℚ, 0 < t → t < 1 →
      pointInsideGeoLoop unitSqLoop unitSqBbox ⟨0, t⟩ = true) :=
  ⟨unitSq_sw_corner, unitSq_nw_corner, unitSq_ne_corner, unitSq_se_corner,
    unitSq_west_edge, unitSq_north_edge, unitSq_east_edge, unitSq_south_edge⟩

/-- Witness for C3: at t = 1/2 the west-edge point is excluded and the
south-edge point is included. -/
theorem pointInside_unitSquare_boundary_witness :
    (0 : ℚ) < 1/2 ∧ (1/2 : ℚ) < 1 ∧
    pointInsideGeoLoop unitSqLoop unitSqBbox ⟨1/2, 0⟩ = false ∧
    pointInsideGeoLoop unitSqLoop unitSqBbox ⟨0, 1/2⟩ = true := by
  refine ⟨by norm_num, by norm_num, ?_, ?_⟩
  · exact pointInside_unitSquare_boundary.2.2.2.2.1 (1/2) (by norm_num)
      (by norm_num)
  · exact pointInside_unitSquare_boundary.2.2.2.2.2.2.2 (1/2) (by norm_num)
      (by norm_num)

/-- Outer box of the two-hole fixture. -/
theorem holeBbs_0 : getBBox holeBbs 0 = ⟨1, 0, 1, 0⟩ := by
  norm_num [getBBox, holeBbs, bboxesFromGeoPolygon, holePoly, bboxFromGeoLoop,
    bboxFromStep, edgePairs, List.rotate, List.foldl, List.getD, DBL_MAX,
    M_PI, abs]

/-- Box of hole 0 of the two-hole fixture. -/
theorem holeBbs_1 : getBBox holeBbs 1 = ⟨4/10, 1/10, 4/10, 1/10⟩ := by
  norm_num [getBBox, holeBbs, bboxesFromGeoPolygon, holePoly, bboxFromGeoLoop,
    bboxFromStep, edgePairs, List.rotate, List.foldl, List.getD, DBL_MAX,
    M_PI, abs]

/-- Box of hole 1 of the two-hole fixture. -/
theorem holeBbs_2 : getBBox holeBbs 2 = ⟨4/10, 1/10, 9/10, 6/10⟩ := by
  norm_num [getBBox, holeBbs, bboxesFromGeoPolygon, holePoly, bboxFromGeoLoop,
    bboxFromStep, edgePairs, List.rotate, List.foldl, List.getD, DBL_MAX,
    M_PI, abs]

/-- The point (2, 2) is outside the two-hole fixture's outer loop. -/
theorem holeFix_out : pointInsideGeoLoop holePoly.geoloop (getBBox holeBbs 0)
    ⟨2, 2⟩ = false := by
  rw [holeBbs_0]
  norm_num [pointInsideGeoLoop, bboxContains, bboxIsTransmeridian]

/-- The point (0.2, 0.2) is inside the two-hole fixture's outer loop. -/
theorem holeFix_inA : pointInsideGeoLoop holePoly.geoloop (getBBox holeBbs 0)
    ⟨2/10, 2/10⟩ = true := by
  rw [holeBbs_0]
  norm_num [pointInsideGeoLoop, pointInsideStep, holePoly, edgePairs,
    List.rotate, List.foldl, bboxContains, bboxIsTransmeridian, NORMALIZE_LNG,
    DBL_EPSILON]

/-- The point (0.2, 0.65) is inside the two-hole fixture's outer loop. -/
theorem holeFix_inB : pointInsideGeoLoop holePoly.geoloop (getBBox holeBbs 0)
    ⟨2/10, 65/100⟩ = true := by
  rw [holeBbs_0]
  norm_num [pointInsideGeoLoop, pointInsideStep, holePoly, edgePairs,
    List.rotate, List.foldl, bboxContains, bboxIsTransmeridian, NORMALIZE_LNG,
    DBL_EPSILON]

/-- The point (0.2, 0.2) is inside hole 0 of the two-hole fixture. -/
theorem holeFix_h0A : pointInsideGeoLoop (getHole holePoly 0)
    (getBBox holeBbs 1) ⟨2/10, 2/10⟩ = true := by
  rw [holeBbs_1]
  show pointInsideGeoLoop
    [⟨1/10, 1/10⟩, ⟨1/10, 4/10⟩, ⟨4/10, 4/10⟩, ⟨4/10, 1/10⟩] _ _ = true
  norm_num [pointInsideGeoLoop, pointInsideStep, edgePairs,
    List.rotate, List.foldl, bboxContains, bboxIsTransmeridian, NORMALIZE_LNG,
    DBL_EPSILON]

/-- The point (0.2, 0.65) is not inside hole 0 of the two-hole fixture. -/
theorem holeFix_h0B : pointInsideGeoLoop (getHole holePoly 0)
    (getBBox holeBbs 1) ⟨2/10, 65/100⟩ = false := by
  rw [holeBbs_1]
  norm_num [pointInsideGeoLoop, bboxContains, bboxIsTransmeridian]

/-- The point (0.2, 0.65) is inside hole 1 of the two-hole fixture. -/
theorem holeFix_h1B : pointInsideGeoLoop (getHole holePoly 1)
    (getBBox holeBbs 2) ⟨2/10, 65/100⟩ = true := by
  rw [holeBbs_2]
  show pointInsideGeoLoop
    [⟨1/10, 6/10⟩, ⟨1/10, 9/10⟩, ⟨4/10, 9/10⟩, ⟨4/10, 6/10⟩] _ _ = true
  norm_num [pointInsideGeoLoop, pointInsideStep, edgePairs,
    List.rotate, List.foldl, bboxContains, bboxIsTransmeridian, NORMALIZE_LNG,
    DBL_EPSILON]

/-- Hole 0 is the first hole containing (0.2, 0.2). -/
theorem holeFix_first_A :
    firstContainingHole holePoly holeBbs ⟨2/10, 2/10⟩ = some 0 := by
  have hlen : holePoly.holes.length = 2 := rfl
  rw [firstContainingHole, hlen]
  simp [List.range_succ, List.find?, holeFix_h0A]

/-- Hole 1 is the first hole containing (0.2, 0.65). -/
theorem holeFix_first_B :
    firstContainingHole holePoly holeBbs ⟨2/10, 65/100⟩ = some 1 := by
  have hlen : holePoly.holes.length = 2 := rfl
  rw [firstContainingHole, hlen]
  simp [List.range_succ, List.find?, holeFix_h0B, holeFix_h1B]

/-- C1: evaluation of the vertex scan of geoLoopIntersectsPolygon at the
failing inputs.  For the loop [(2,2), (0.2,0.2)] the first vertex is outside
the outer loop (nothing recorded) and the second lies in hole 0, yet the
scan does not return true early: the guard on line 154 requires the hole
index to be positive, so the scan completes with holeIndex = 0.  Dually, a
single-vertex loop inside hole 1 (no previous vertex at all) makes the
function return true immediately. -/
theorem geoLoopIntersectsPolygon_holeGuard :
    pointInsideGeoLoop holePoly.geoloop (getBBox holeBbs 0) ⟨2, 2⟩ = false ∧
    pointInsideGeoLoop holePoly.geoloop (getBBox holeBbs 0) ⟨2/10, 2/10⟩
      = true ∧
    firstContainingHole holePoly holeBbs ⟨2/10, 2/10⟩ = some 0 ∧
    intersectsScan holePoly holeBbs [⟨2, 2⟩, ⟨2/10, 2/10⟩] (-1) = some 0 ∧
    firstContainingHole holePoly holeBbs ⟨2/10, 65/100⟩ = some 1 ∧
    intersectsScan holePoly holeBbs [⟨2/10, 65/100⟩] (-1) = none ∧
    geoLoopIntersectsPolygon holePoly holeBbs [⟨2/10, 65/100⟩] = true := by
  have hscan1 : intersectsScan holePoly holeBbs [⟨2, 2⟩, ⟨2/10, 2/10⟩] (-1)
      = some 0 := by
    simp [intersectsScan, holeFix_out, holeFix_inA, holeFix_first_A]
  have hscan2 : intersectsScan holePoly holeBbs [⟨2/10, 65/100⟩] (-1)
      = none := by
    simp [intersectsScan, holeFix_inB, holeFix_first_B]
  refine ⟨holeFix_out, holeFix_inA, holeFix_first_A, hscan1, holeFix_first_B,
    hscan2, ?_⟩
  rw [geoLoopIntersectsPolygon, hscan2]

/-- Outer box of the bounding-box-pairing fixture (not transmeridian). -/
theorem bbC2_0 : getBBox bbC2 0 = ⟨1, -1, 313/100, 2⟩ := by
  norm_num [getBBox, bbC2, bboxesFromGeoPolygon, polyC2, outerC2, holeC2,
    bboxFromGeoLoop, bboxFromStep, edgePairs, List.rotate, List.foldl,
    List.getD, DBL_MAX, M_PI, abs]

/-- Hole box of the bounding-box-pairing fixture: east and west are swapped
to the max-negative and min-positive longitudes, so west > east. -/
theorem bbC2_1 : getBBox bbC2 1 = ⟨1/10, -1/10, -3, 29/10⟩ := by
  norm_num [getBBox, bbC2, bboxesFromGeoPolygon, polyC2, outerC2, holeC2,
    bboxFromGeoLoop, bboxFromStep, edgePairs, List.rotate, List.foldl,
    List.getD, DBL_MAX, M_PI, abs]

/-- The first candidate vertex is inside the fixture's outer loop. -/
theorem c2_outP0 : pointInsideGeoLoop polyC2.geoloop (getBBox bbC2 0)
    ⟨5/100, 295/100⟩ = true := by
  rw [bbC2_0]
  show pointInsideGeoLoop outerC2 _ _ = true
  norm_num [pointInsideGeoLoop, pointInsideStep, outerC2, edgePairs,
    List.rotate, List.foldl, bboxContains, bboxIsTransmeridian, NORMALIZE_LNG,
    DBL_EPSILON]

/-- The second candidate vertex is inside the fixture's outer loop. -/
theorem c2_outP1 : pointInsideGeoLoop polyC2.geoloop (getBBox bbC2 0)
    ⟨5/100, 31/10⟩ = true := by
  rw [bbC2_0]
  show pointInsideGeoLoop outerC2 _ _ = true
  norm_num [pointInsideGeoLoop, pointInsideStep, outerC2, edgePairs,
    List.rotate, List.foldl, bboxContains, bboxIsTransmeridian, NORMALIZE_LNG,
    DBL_EPSILON]

/-- The first candidate vertex lies inside the transmeridian U-shaped
hole. -/
theorem c2_holeP0 : pointInsideGeoLoop (getHole polyC2 0) (getBBox bbC2 1)
    ⟨5/100, 295/100⟩ = true := by
  rw [bbC2_1]
  show pointInsideGeoLoop holeC2 _ _ = true
  norm_num [pointInsideGeoLoop, pointInsideStep, holeC2, edgePairs,
    List.rotate, List.foldl, bboxContains, bboxIsTransmeridian, NORMALIZE_LNG,
    DBL_EPSILON, M_2PI, abs]

/-- The second candidate vertex lies inside the transmeridian U-shaped
hole. -/
theorem c2_holeP1 : pointInsideGeoLoop (getHole polyC2 0) (getBBox bbC2 1)
    ⟨5/100, 31/10⟩ = true := by
  rw [bbC2_1]
  show pointInsideGeoLoop holeC2 _ _ = true
  norm_num [pointInsideGeoLoop, pointInsideStep, holeC2, edgePairs,
    List.rotate, List.foldl, bboxContains, bboxIsTransmeridian, NORMALIZE_LNG,
    DBL_EPSILON, M_2PI, abs]

/-- Hole 0 is the first (only) hole containing the first candidate
vertex. -/
theorem c2_first_P0 :
    firstContainingHole polyC2 bbC2 ⟨5/100, 295/100⟩ = some 0 := by
  have hlen : polyC2.holes.length = 1 := rfl
  rw [firstContainingHole, hlen]
  simp [List.range_succ, List.find?, c2_holeP0]

/-- Hole 0 is the first (only) hole containing the second candidate
vertex. -/
theorem c2_first_P1 :
    firstContainingHole polyC2 bbC2 ⟨5/100, 31/10⟩ = some 0 := by
  have hlen : polyC2.holes.length = 1 := rfl
  rw [firstContainingHole, hlen]
  simp [List.range_succ, List.find?, c2_holeP1]

/-- With the bbox the source passes (the outer loop's box, index
holeIndex = 0), the candidate segment is found to cross the hole's notch. -/
theorem c2_segment_codeBox : segmentIntersectsGeoLoop (getHole polyC2 0)
    (getBBox bbC2 0) ⟨5/100, 295/100⟩ ⟨5/100, 31/10⟩ = true := by
  rw [bbC2_0]
  show segmentIntersectsGeoLoop holeC2 _ _ _ = true
  norm_num [segmentIntersectsGeoLoop, segmentIntersectsScan, holeC2,
    edgePairs, List.rotate, geoAlmostEqualThreshold, _v2dOrient,
    bboxIsTransmeridian, NORMALIZE_LNG, DBL_EPSILON, M_PI, M_2PI, abs]

/-- With the hole's own bbox (index holeIndex + 1, as the claim states), the
raw fast-reject fires — both endpoint longitudes exceed the transmeridian
box's east bound — and the segment check reports no intersection. -/
theorem c2_segment_specBox1 : segmentIntersectsGeoLoop (getHole polyC2 0)
    (getBBox bbC2 1) ⟨5/100, 295/100⟩ ⟨5/100, 31/10⟩ = false := by
  rw [bbC2_1]
  show segmentIntersectsGeoLoop holeC2 _ _ _ = false
  norm_num [segmentIntersectsGeoLoop]

/-- The reversed candidate segment is likewise fast-rejected against the
hole's own bbox. -/
theorem c2_segment_specBox2 : segmentIntersectsGeoLoop (getHole polyC2 0)
    (getBBox bbC2 1) ⟨5/100, 31/10⟩ ⟨5/100, 295/100⟩ = false := by
  rw [bbC2_1]
  show segmentIntersectsGeoLoop holeC2 _ _ _ = false
  norm_num [segmentIntersectsGeoLoop]

/-- C2: at the bounding-box-pairing fixture the vertex scan completes with
holeIndex = 0 (two vertices, all inside hole 0), and the segment phase of
the source, which pairs the hole's loop with bboxes[holeIndex], returns
true, while the spec's pairing with bboxes[holeIndex + 1] (the hole's own
box) returns false: the two pairings are observably different. -/
theorem geoLoopIntersectsPolygon_bboxIndex :
    intersectsScan polyC2 bbC2 loopC2 (-1) = some 0 ∧
    bboxIsTransmeridian (getBBox bbC2 1) = true ∧
    geoLoopIntersectsPolygon polyC2 bbC2 loopC2 = true ∧
    geoLoopIntersectsPolygonSpec polyC2 bbC2 loopC2 = false := by
  have hscan : intersectsScan polyC2 bbC2 loopC2 (-1) = some 0 := by
    simp [loopC2, intersectsScan, c2_outP0, c2_outP1, c2_first_P0, c2_first_P1]
  refine ⟨hscan, by rw [bbC2_1]; norm_num [bboxIsTransmeridian], ?_, ?_⟩
  · rw [geoLoopIntersectsPolygon, hscan]
    simp [loopC2, edgePairs, List.rotate, c2_segment_codeBox]
  · rw [geoLoopIntersectsPolygonSpec, hscan]
    simp [loopC2, edgePairs, List.rotate, c2_segment_specBox1,
      c2_segment_specBox2]

/-- Witness for C8: on a transmeridian bbox (west 3 > east -3), a segment
with both endpoint longitudes beyond east is rejected even though the loop
is nonempty; the empty loop is rejected outright. -/
theorem segmentIntersects_fastreject_witness :
    bboxIsTransmeridian ⟨1, -1, -3, 3⟩ = true ∧
    segmentIntersectsGeoLoop [⟨0, 0⟩] ⟨1, -1, -3, 3⟩ ⟨0, 0⟩ ⟨0, 1⟩ = false ∧
    segmentIntersectsGeoLoop [] ⟨1, -1, -3, 3⟩ ⟨0, 0⟩ ⟨0, 1⟩ = false := by
  refine ⟨by norm_num [bboxIsTransmeridian], ?_, ?_⟩
  · exact (segmentIntersects_empty_or_fastreject [⟨0, 0⟩] ⟨1, -1, -3, 3⟩
      ⟨0, 0⟩ ⟨0, 1⟩).2 (Or.inr (Or.inl (by norm_num)))
  · exact (segmentIntersects_empty_or_fastreject [] ⟨1, -1, -3, 3⟩
      ⟨0, 0⟩ ⟨0, 1⟩).1
